import Mathlib

/-!
Shallow embedding of `src/decompress.rs` (mozjpeg-rust decompression front-end)
and proofs about its specification claims.

Conventions of the embedding:
* Machine integers that cannot overflow in the modelled ranges are `Nat`.
* Caller destination buffers (`Vec<u8>`) are modelled by their lengths
  (`extend_uninit` only grows a buffer with uninitialised bytes, so length is
  the whole observable state here).
* A raw row pointer into a destination buffer is modelled as
  `Option (Nat × Nat)`: `some (start, len)` is a pointer to the byte range
  `[start, start + len)` of that component's buffer, `none` is the null pointer.
* The external decoding engine (mozjpeg-sys) is an external collaborator; its
  calls are modelled at their interface boundary as oracle parameters
  (e.g. `jpeg_read_raw_data` / `jpeg_read_scanlines` become a function from the
  current `output_scanline` to the number of rows the engine reports, with the
  engine advancing `output_scanline` by that count).
* Rust panics (`panic!`, `assert!`, `assert_eq!`) are modelled as explicit
  abort outcomes.
-/

deriving instance DecidableEq for Except

namespace Mozjpeg

/-- Constant `DCTSIZE` from mozjpeg-sys: the DCT block edge, 8 samples. -/
def DCTSIZE : Nat := 8

/-- Source constant `MAX_MCU_HEIGHT = 16` (decompress.rs line 28). -/
def MAX_MCU_HEIGHT : Nat := 16

/-- Source constant `MAX_COMPONENTS = 4` (decompress.rs line 29). -/
def MAX_COMPONENTS : Nat := 4

/-- Modelled from the spec: the `Marker` enumeration of `marker.rs` (a file of
this repository not present under `src/`). Per the spec's marker-tag
collaborator, it enumerates the application markers APP0–APP15 and the comment
marker COM. -/
inductive Marker where
  | APP (n : Nat)
  | COM
deriving DecidableEq, Repr

/-- Source constant `NO_MARKERS`, the empty marker list (decompress.rs line 31). -/
def NO_MARKERS : List Marker := []

/-- Source constant `ALL_MARKERS` exactly as written in decompress.rs lines 32–37:
`APP(0)` through `APP(14)` followed by `COM`. -/
def ALL_MARKERS : List Marker := [
  Marker.APP 0, Marker.APP 1, Marker.APP 2, Marker.APP 3, Marker.APP 4,
  Marker.APP 5, Marker.APP 6, Marker.APP 7, Marker.APP 8, Marker.APP 9,
  Marker.APP 10, Marker.APP 11, Marker.APP 12, Marker.APP 13, Marker.APP 14,
  Marker.COM]

/-- Structure `DecompressConfig`: the builder holding the marker-interest set and an
optional caller-supplied error manager. The `ErrorMgr` value itself lives in
`errormgr.rs` (not under `src/`), and only its presence matters here, so the
field is modelled as `Option Unit`. -/
structure DecompressConfig where
  save_markers : List Marker
  err : Option Unit
deriving DecidableEq, Repr

/-- Constructor `DecompressConfig::new()` (decompress.rs lines 46–51): no error manager,
marker set `NO_MARKERS`. -/
def DecompressConfig.new : DecompressConfig :=
  { err := none, save_markers := NO_MARKERS }

/-- Builder method `DecompressConfig::with_markers` (decompress.rs lines 69–72). -/
def DecompressConfig.with_markers (c : DecompressConfig) (save_markers : List Marker) :
    DecompressConfig :=
  { c with save_markers := save_markers }

/-- Method `Decompress::save_marker` (decompress.rs lines 242–246) registers interest
in one marker with the engine via `jpeg_save_markers(&mut cinfo, marker, 0xFFFF)`.
The engine-side registration list is modelled as a list of
(marker, length limit) pairs. -/
def save_marker (regs : List (Marker × Nat)) (m : Marker) : List (Marker × Nat) :=
  regs ++ [(m, 0xFFFF)]

/-- Method `DecompressConfig::create` (decompress.rs lines 54–60): registers every
marker of the configured set, in order, with the engine. The returned value is
the engine's marker-interest registration list. -/
def DecompressConfig.create (c : DecompressConfig) : List (Marker × Nat) :=
  c.save_markers.foldl save_marker []

/-- Modelled from the spec: the engine collaborator's
`registerMarkerInterest(tag, sizeLimit)` (spec §6) retains at most `sizeLimit`
bytes of a matching marker segment's data, so the retained data length of a
segment of `segLen` bytes under limit `lim` is `min segLen lim`. -/
def retainedMarkerLen (segLen lim : Nat) : Nat :=
  min segLen lim

/-- Engine `J_COLOR_SPACE` tags used by this module (mozjpeg-sys). -/
inductive JColorSpace where
  | JCS_UNKNOWN
  | JCS_GRAYSCALE
  | JCS_RGB
  | JCS_YCbCr
  | JCS_CMYK
  | JCS_YCCK
deriving DecidableEq, Repr

/-- Modelled from the spec: the colorspace mapping collaborator of
`colorspace.rs` (a file of this repository not present under `src/`), which
"maps a colorspace tag to its component count (e.g., RGB→3, Gray→1, CMYK→4)"
(spec §6). YCbCr has 3 components and YCCK 4, as in libjpeg. -/
def num_components (cs : JColorSpace) : Nat :=
  match cs with
  | .JCS_UNKNOWN => 0
  | .JCS_GRAYSCALE => 1
  | .JCS_RGB => 3
  | .JCS_YCbCr => 3
  | .JCS_CMYK => 4
  | .JCS_YCCK => 4

/-- The per-component fields of `jpeg_component_info` this module reads:
`v_samp_factor`, and the derived raw row stride `comp_info.row_stride()`
(implemented in `component.rs`, not under `src/`; kept abstract as a plain
attribute, since decompress.rs only ever multiplies by its value). -/
structure CompInfo where
  v_samp_factor : Nat
  row_stride : Nat
deriving DecidableEq, Repr

/-- The fields of `jpeg_decompress_struct` that decompress.rs reads or writes
in the operations under study. -/
structure DecState where
  raw_data_out : Bool
  max_v_samp_factor : Nat
  components : List CompInfo
  output_scanline : Nat
  output_height : Nat
  output_width : Nat
  out_color_space : JColorSpace
deriving DecidableEq, Repr

/-- Method `DecompressStarted::read_more_chunks` (decompress.rs lines 321–323):
`self.dec.cinfo.output_scanline < self.dec.cinfo.output_height`. -/
def read_more_chunks (s : DecState) : Bool :=
  decide (s.output_scanline < s.output_height)

/-- Outcome of the engine's `jpeg_read_header` call as observed by the caller:
either the engine hit a fatal error and invoked the error manager's
`error_exit` with diagnostic `code`, or it returned the status `res`. -/
inductive HeaderEngineOutcome where
  | fatal (code : Nat)
  | ret (res : Int)
deriving DecidableEq, Repr

/-- Result of `Decompress::read_header` as observed by the process. -/
inductive HeaderResult where
  | ok
  | decodeError (res : Int)
  | aborted (code : Nat)
deriving DecidableEq, Repr

/-- Method `Decompress::read_header` (decompress.rs lines 217–225). Modelled from the
spec: the `ErrorMgr` collaborator lives in `errormgr.rs`, not under `src/`; the
default manager installed by `DecompressConfig::create` is
`PanicingErrorMgr`, which aborts the process by panicking when the engine
raises a fatal error — decompress.rs's own comment on this function says
"it will panic if the file is invalid". When the engine instead returns a
status, `res == 1` is success and anything else becomes an `io::Error` whose
message carries the engine code (`format!("JPEG err {}", res)`). -/
def read_header (eng : HeaderEngineOutcome) : HeaderResult :=
  match eng with
  | .fatal code => .aborted code
  | .ret res => if res = 1 then .ok else .decodeError res

/-- Shape test: is a `read_header` outcome a structured decode error? -/
def HeaderResult.isDecodeError : HeaderResult → Bool
  | .decodeError _ => true
  | _ => false

/-- Shape test: did `read_header` abort (panic) the process? -/
def HeaderResult.isAborted : HeaderResult → Bool
  | .aborted _ => true
  | _ => false

/-- A raw row pointer: `some (start, len)` points at byte range
`[start, start + len)` of the component's destination buffer; `none` is null. -/
abbrev RowPtr := Option (Nat × Nat)

/-- The growth of the destination buffers performed by the per-component loop
of `read_raw_data_chunk` (decompress.rs lines 347–352): for every component
index `ci`, `image_dest[ci].extend_uninit(comp_height * row_stride)` with
`comp_height = v_samp_factor * DCTSIZE`; buffers beyond the component count are
untouched. Buffers are modelled by their lengths. -/
def grownDest (comps : List CompInfo) (dest : List Nat) : List Nat :=
  (List.range dest.length).map fun ci =>
    match comps[ci]? with
    | some c => dest.getD ci 0 + c.v_samp_factor * DCTSIZE * c.row_stride
    | none => dest.getD ci 0

/-- The row-pointer row `row_ptrs[ci]` built by `read_raw_data_chunk` for one
component (decompress.rs lines 345, 353–359): a 16-entry array initialised to
null (`[[ptr::null_mut(); MAX_MCU_HEIGHT]; MAX_COMPONENTS]`), whose entries
`0 .. comp_height` are set to the consecutive `row_stride`-sized ranges
starting at the buffer's pre-call length `origLen`, and whose entries
`comp_height .. mcu_height` are set to null. -/
def compRowPtrs (origLen rowStride compHeight mcuHeight : Nat) : List RowPtr :=
  let withRows := (List.range compHeight).foldl
    (fun acc ri => acc.set ri (some (origLen + ri * rowStride, rowStride)))
    (List.replicate MAX_MCU_HEIGHT (none : RowPtr))
  (List.range' compHeight (mcuHeight - compHeight)).foldl
    (fun acc ri => acc.set ri (none : RowPtr)) withRows

/-- The whole `row_ptrs` table of `read_raw_data_chunk`: one row per component
slot (4 slots as in the Rust fixed-size array); slots with no component keep
their all-null initialisation. `dest` holds the pre-call buffer lengths. -/
def rowPtrsTable (comps : List CompInfo) (dest : List Nat) (mcuHeight : Nat) :
    List (List RowPtr) :=
  (List.range MAX_COMPONENTS).map fun ci =>
    match comps[ci]? with
    | some c =>
        compRowPtrs (dest.getD ci 0) c.row_stride (c.v_samp_factor * DCTSIZE) mcuHeight
    | none => List.replicate MAX_MCU_HEIGHT (none : RowPtr)

/-- The abort points of `read_raw_data_chunk`:
`rawNotSet` — `assert!(0 != raw_data_out, "Raw data not set")` (line 332);
`mcuTooTall` — `panic!("Subsampling factor too large")` (line 336);
`tooManyComponents` — `panic!("Too many components ...")` (line 341);
`shortRead` — `assert_eq!(lines_read, mcu_height)` after the engine call
(line 365). -/
inductive RawAbort where
  | rawNotSet
  | mcuTooTall
  | tooManyComponents
  | shortRead
deriving DecidableEq, Repr

/-- Outcome of one `read_raw_data_chunk` call: either a panic, or success
carrying the row-pointer table handed to the engine, the row count the engine
reported, and the post-call decoder state. -/
inductive RawChunkOutcome where
  | panicked (e : RawAbort)
  | ok (rowPtrs : List (List RowPtr)) (linesRead : Nat) (s' : DecState)
deriving DecidableEq, Repr

/-- Method `DecompressStarted::read_raw_data_chunk` (decompress.rs lines 331–367).
`engine` is the oracle for `jpeg_read_raw_data`: from the current
`output_scanline` it gives the number of rows the engine reports having read
(the engine advances `output_scanline` by that count). The second component of
the result is the destination-buffer lengths after the call: unchanged when a
precondition panic fires before the per-component loop, grown otherwise (the
buffers are already grown when the short-read assertion fires). -/
def read_raw_data_chunk (engine : Nat → Nat) (s : DecState) (image_dest : List Nat) :
    RawChunkOutcome × List Nat :=
  if s.raw_data_out = false then (.panicked .rawNotSet, image_dest)
  else
    let mcu_height := s.max_v_samp_factor * DCTSIZE
    if MAX_MCU_HEIGHT < mcu_height then (.panicked .mcuTooTall, image_dest)
    else
      let nc := s.components.length
      if MAX_COMPONENTS < nc ∨ image_dest.length < nc then
        (.panicked .tooManyComponents, image_dest)
      else
        let newDest := grownDest s.components image_dest
        let rowPtrs := rowPtrsTable s.components image_dest mcu_height
        let lines_read := engine s.output_scanline
        if lines_read ≠ mcu_height then (.panicked .shortRead, newDest)
        else
          (.ok rowPtrs lines_read
            { s with output_scanline := s.output_scanline + lines_read }, newDest)

/-- Shape test: did the chunk call panic (for any reason)? -/
def RawChunkOutcome.isPanicked : RawChunkOutcome → Bool
  | .panicked _ => true
  | _ => false

/-- Shape test: did the chunk call panic in one of its entry precondition
checks (before any destination buffer is touched), as opposed to the
post-engine short-read assertion? -/
def RawChunkOutcome.isPreconditionPanic : RawChunkOutcome → Bool
  | .panicked .rawNotSet => true
  | .panicked .mcuTooTall => true
  | .panicked .tooManyComponents => true
  | _ => false

/-- The loop of `DecompressStarted::read_raw_data` (decompress.rs lines
325–329): `while self.read_more_chunks() { self.read_raw_data_chunk(...) }`.
A panic in the chunk propagates (`.error`). `fuel` bounds the number of
iterations of the model only; `none` means the fuel ran out while the loop
predicate still held (with fuel `output_height - output_scanline` this is
unreachable whenever the MCU height is positive, proved below). -/
def read_raw_data_loop (engine : Nat → Nat) :
    Nat → DecState → List Nat → Option (Except RawAbort (DecState × List Nat))
  | 0, s, dest =>
    if read_more_chunks s then none else some (.ok (s, dest))
  | fuel + 1, s, dest =>
    if read_more_chunks s then
      match read_raw_data_chunk engine s dest with
      | (.panicked e, _) => some (.error e)
      | (.ok _ _ s', d) => read_raw_data_loop engine fuel s' d
    else some (.ok (s, dest))

/-- Method `DecompressStarted::read_raw_data` (decompress.rs lines 325–329). -/
def read_raw_data (engine : Nat → Nat) (s : DecState) (dest : List Nat) :
    Option (Except RawAbort (DecState × List Nat)) :=
  read_raw_data_loop engine (s.output_height - s.output_scanline) s dest

/-- The started-decompression wrapper `DecompressStarted` (decompress.rs lines
301–303): it just owns the decoder state. -/
structure DecompressStartedM where
  dec : DecState
deriving DecidableEq, Repr

/-- Method `DecompressStarted::start_decompress` (decompress.rs lines 306–315).
`engineOk` is the boolean result of the engine's `jpeg_start_decompress`;
`0 != res` is success. The engine does not change `out_color_space`, so the
state is carried through unchanged; failure is the `io::Error` branch. -/
def start_decompress (engineOk : Bool) (dec : DecState) :
    Except Unit DecompressStartedM :=
  if engineOk then .ok { dec := dec } else .error ()

/-- Source enum `Format` (decompress.rs lines 295–299). -/
inductive Format where
  | RGB (d : DecompressStartedM)
  | Gray (d : DecompressStartedM)
  | CMYK (d : DecompressStartedM)
deriving DecidableEq, Repr

/-- The two error branches of `Decompress::image`: the engine failed to start
(`Err("JPEG err ...")` inside a supported arm), or the negotiated output
colorspace has no `Format` variant (`Err(format!("{:?}", format))`). -/
inductive ImageError where
  | startFailed
  | unsupported (cs : JColorSpace)
deriving DecidableEq, Repr

/-- Method `Decompress::image` (decompress.rs lines 284–292): match on
`out_color_space()`; RGB, CMYK and grayscale start decompression and wrap the
started session in the matching `Format` variant, every other colorspace is
returned as an error without starting. -/
def image (engineOk : Bool) (dec : DecState) : Except ImageError Format :=
  match dec.out_color_space with
  | .JCS_RGB =>
      match start_decompress engineOk dec with
      | .ok d => .ok (.RGB d)
      | .error _ => .error .startFailed
  | .JCS_CMYK =>
      match start_decompress engineOk dec with
      | .ok d => .ok (.CMYK d)
      | .error _ => .error .startFailed
  | .JCS_GRAYSCALE =>
      match start_decompress engineOk dec with
      | .ok d => .ok (.Gray d)
      | .error _ => .error .startFailed
  | cs => .error (.unsupported cs)

/-- The result of `DecompressStarted::read_scanlines::<T>`:
`sizeMismatch` — the `assert_eq!(num_components, mem::size_of::<T>())` panic;
`noData` — the `return None` branch (engine reported zero rows mid-image);
`image len s'` — `Some(image_dst)` with `len` elements and final state `s'`;
`stuck` — model artifact: the fuel-bounded loop ran out of fuel (proved
unreachable below, since every iteration either returns or advances the
scanline). -/
inductive ScanResult where
  | sizeMismatch
  | noData
  | image (len : Nat) (s' : DecState)
  | stuck
deriving DecidableEq, Repr

/-- The `while self.read_more_chunks()` loop of `read_scanlines` (decompress.rs
lines 386–396). `engine` is the oracle for `jpeg_read_scanlines` invoked with
`max_lines = 1`: from the current scanline it gives `rows_read`, and the engine
advances `output_scanline` by that count (the `debug_assert_eq!` in the source
states exactly this). Returns `some none` for the `return None` branch,
`some (some sc)` for normal exit at final scanline `sc`, and `none` when the
fuel runs out. -/
def read_scanlines_loop (engine : Nat → Nat) (height : Nat) :
    Nat → Nat → Option (Option Nat)
  | 0, sc => if sc < height then none else some (some sc)
  | fuel + 1, sc =>
    if sc < height then
      let rows_read := engine sc
      if rows_read = 0 then some none
      else read_scanlines_loop engine height fuel (sc + rows_read)
    else some (some sc)

/-- Method `DecompressStarted::read_scanlines::<T>` (decompress.rs lines 377–399).
`sizeT` is `mem::size_of::<T>()`. The source's locals `width` and `height`
(`output_width()` / `output_height()`) are inlined. The buffer is allocated
once before the loop with exactly `height * width` elements
(`Vec::with_capacity` followed by `extend_uninit(height * width)`) and is
modelled by that element count, which the loop never changes (rows are written
in place). -/
def read_scanlines (sizeT : Nat) (engine : Nat → Nat) (s : DecState) : ScanResult :=
  if num_components s.out_color_space ≠ sizeT then .sizeMismatch
  else
    match read_scanlines_loop engine s.output_height
        (s.output_height - s.output_scanline) s.output_scanline with
    | some (some sc') => .image (s.output_height * s.output_width)
        { s with output_scanline := sc' }
    | some none => .noData
    | none => .stuck

/-! ## Helper lemmas -/

theorem length_foldl_set {α : Type} (f : Nat → α) (idxs : List Nat) (l : List α) :
    (idxs.foldl (fun acc ri => acc.set ri (f ri)) l).length = l.length := by
  induction idxs generalizing l with
  | nil => rfl
  | cons i idxs ih => simp [List.foldl_cons, ih, List.length_set]

theorem getElem?_foldl_set_range {α : Type} (f : Nat → α) (n : Nat) (l : List α)
    (i : Nat) :
    ((List.range n).foldl (fun acc ri => acc.set ri (f ri)) l)[i]? =
      if i < n ∧ i < l.length then some (f i) else l[i]? := by
  induction n with
  | zero => simp
  | succ n ih =>
    rw [List.range_succ, List.foldl_append, List.foldl_cons, List.foldl_nil,
      List.getElem?_set, length_foldl_set, ih]
    by_cases hn : n = i
    · subst hn
      rw [if_pos rfl]
      by_cases hl : n < l.length
      · rw [if_pos hl, if_pos ⟨Nat.lt_succ_self n, hl⟩]
      · rw [if_neg hl, if_neg (by omega), List.getElem?_eq_none (by omega)]
    · rw [if_neg hn]
      by_cases hi : i < n ∧ i < l.length
      · rw [if_pos hi, if_pos ⟨by omega, hi.2⟩]
      · rw [if_neg hi]
        by_cases hi' : i < n + 1 ∧ i < l.length
        · exact absurd ⟨by omega, hi'.2⟩ hi
        · rw [if_neg hi']

theorem getElem?_foldl_set_range' {α : Type} (a : α) (len : Nat) :
    ∀ (start : Nat) (l : List α) (i : Nat),
    ((List.range' start len).foldl (fun acc ri => acc.set ri a) l)[i]? =
      if start ≤ i ∧ i < start + len ∧ i < l.length then some a else l[i]? := by
  induction len with
  | zero =>
    intro start l i
    simp only [List.range', List.foldl_nil]
    exact (if_neg (by omega)).symm
  | succ len ih =>
    intro start l i
    rw [List.range'_succ, List.foldl_cons, ih (start + 1) (l.set start a) i,
      List.length_set, List.getElem?_set]
    by_cases h1 : start + 1 ≤ i ∧ i < start + 1 + len ∧ i < l.length
    · rw [if_pos h1, if_pos ⟨by omega, by omega, h1.2.2⟩]
    · rw [if_neg h1]
      by_cases hs : start = i
      · subst hs
        rw [if_pos rfl]
        by_cases hl : start < l.length
        · rw [if_pos hl, if_pos ⟨Nat.le_refl start, by omega, hl⟩]
        · rw [if_neg hl, if_neg (by omega), List.getElem?_eq_none (by omega)]
      · rw [if_neg hs]
        by_cases h2 : start ≤ i ∧ i < start + (len + 1) ∧ i < l.length
        · exact absurd ⟨by omega, by omega, h2.2.2⟩ h1
        · rw [if_neg h2]

theorem length_compRowPtrs (origLen rowStride compHeight mcuHeight : Nat) :
    (compRowPtrs origLen rowStride compHeight mcuHeight).length = MAX_MCU_HEIGHT := by
  unfold compRowPtrs
  rw [length_foldl_set (fun _ => (none : RowPtr)), length_foldl_set
    (fun ri => (some (origLen + ri * rowStride, rowStride) : RowPtr)),
    List.length_replicate]

theorem compRowPtrs_getElem? (origLen rowStride compHeight mcuHeight i : Nat)
    (hi : i < MAX_MCU_HEIGHT) :
    (compRowPtrs origLen rowStride compHeight mcuHeight)[i]? =
      if i < compHeight then some (some (origLen + i * rowStride, rowStride))
      else some none := by
  unfold compRowPtrs
  rw [getElem?_foldl_set_range' (none : RowPtr),
    length_foldl_set (fun ri => (some (origLen + ri * rowStride, rowStride) : RowPtr)),
    getElem?_foldl_set_range
      (fun ri => (some (origLen + ri * rowStride, rowStride) : RowPtr)),
    List.length_replicate, List.getElem?_replicate]
  by_cases hch : i < compHeight
  · rw [if_neg (by omega), if_pos ⟨hch, hi⟩, if_pos hch]
  · rw [if_neg hch]
    by_cases hmid : compHeight ≤ i ∧ i < compHeight + (mcuHeight - compHeight) ∧
        i < MAX_MCU_HEIGHT
    · rw [if_pos hmid]
    · rw [if_neg hmid, if_neg (by omega), if_pos hi]

theorem length_grownDest (comps : List CompInfo) (dest : List Nat) :
    (grownDest comps dest).length = dest.length := by
  unfold grownDest
  rw [List.length_map, List.length_range]

theorem grownDest_getD (comps : List CompInfo) (dest : List Nat) (ci : Nat)
    (c : CompInfo) (hci : ci < dest.length) (hc : comps[ci]? = some c) :
    (grownDest comps dest).getD ci 0 =
      dest.getD ci 0 + c.v_samp_factor * DCTSIZE * c.row_stride := by
  unfold grownDest
  rw [List.getD_eq_getElem?_getD, List.getElem?_map, List.getElem?_range hci]
  simp only [Option.map_some', Option.getD_some]
  rw [hc]

theorem rowPtrsTable_getD (comps : List CompInfo) (dest : List Nat)
    (mcuHeight ci : Nat) (c : CompInfo) (hci : ci < MAX_COMPONENTS)
    (hc : comps[ci]? = some c) :
    (rowPtrsTable comps dest mcuHeight).getD ci [] =
      compRowPtrs (dest.getD ci 0) c.row_stride (c.v_samp_factor * DCTSIZE)
        mcuHeight := by
  unfold rowPtrsTable
  rw [List.getD_eq_getElem?_getD, List.getElem?_map, List.getElem?_range hci]
  simp only [Option.map_some', Option.getD_some]
  rw [hc]

theorem read_raw_data_chunk_eq (engine : Nat → Nat) (s : DecState) (dest : List Nat)
    (hraw : s.raw_data_out = true)
    (hmcu : s.max_v_samp_factor * DCTSIZE ≤ MAX_MCU_HEIGHT)
    (hnc : s.components.length ≤ MAX_COMPONENTS)
    (hdest : s.components.length ≤ dest.length) :
    read_raw_data_chunk engine s dest =
      (if engine s.output_scanline = s.max_v_samp_factor * DCTSIZE then
        RawChunkOutcome.ok
          (rowPtrsTable s.components dest (s.max_v_samp_factor * DCTSIZE))
          (engine s.output_scanline)
          { s with output_scanline := s.output_scanline + engine s.output_scanline }
      else .panicked .shortRead,
      grownDest s.components dest) := by
  unfold read_raw_data_chunk
  rw [hraw, if_neg (by decide), if_neg (by omega), if_neg (by omega)]
  by_cases hfull : engine s.output_scanline = s.max_v_samp_factor * DCTSIZE
  · rw [if_neg (fun hh => hh hfull), if_pos hfull, hfull]
  · rw [if_pos hfull, if_neg hfull]

theorem read_raw_data_loop_ok_exits (engine : Nat → Nat) :
    ∀ (fuel : Nat) (s : DecState) (dest : List Nat) (s' : DecState) (d' : List Nat),
      read_raw_data_loop engine fuel s dest = some (.ok (s', d')) →
      read_more_chunks s' = false := by
  intro fuel
  induction fuel with
  | zero =>
    intro s dest s' d' h
    unfold read_raw_data_loop at h
    by_cases hm : read_more_chunks s
    · rw [if_pos hm] at h; exact absurd h (by simp)
    · rw [if_neg hm] at h
      have hs : s = s' ∧ dest = d' := by
        have := Option.some.inj h
        have := Except.ok.inj this
        exact ⟨congrArg Prod.fst this, congrArg Prod.snd this⟩
      rw [← hs.1]
      exact Bool.of_not_eq_true hm
  | succ fuel ih =>
    intro s dest s' d' h
    unfold read_raw_data_loop at h
    by_cases hm : read_more_chunks s
    · rw [if_pos hm] at h
      cases hc : (read_raw_data_chunk engine s dest) with
      | mk o d =>
        rw [hc] at h
        cases o with
        | panicked e => exact absurd h (by simp)
        | ok rp lr s2 => exact ih s2 d s' d' h
    · rw [if_neg hm] at h
      have hs : s = s' ∧ dest = d' := by
        have := Option.some.inj h
        have := Except.ok.inj this
        exact ⟨congrArg Prod.fst this, congrArg Prod.snd this⟩
      rw [← hs.1]
      exact Bool.of_not_eq_true hm

theorem read_raw_data_loop_terminates (engine : Nat → Nat) :
    ∀ (fuel : Nat) (s : DecState) (dest : List Nat),
      s.raw_data_out = true →
      s.max_v_samp_factor * DCTSIZE ≤ MAX_MCU_HEIGHT →
      s.components.length ≤ MAX_COMPONENTS →
      s.components.length ≤ dest.length →
      1 ≤ s.max_v_samp_factor →
      (∀ n, engine n = s.max_v_samp_factor * DCTSIZE) →
      s.output_height - s.output_scanline ≤ fuel →
      ∃ s' d', read_raw_data_loop engine fuel s dest = some (.ok (s', d')) := by
  intro fuel
  induction fuel with
  | zero =>
    intro s dest hraw hmcu hnc hdest hpos hengine hfuel
    refine ⟨s, dest, ?_⟩
    unfold read_raw_data_loop
    rw [if_neg ?_]
    intro hm
    rw [read_more_chunks, decide_eq_true_eq] at hm
    omega
  | succ fuel ih =>
    intro s dest hraw hmcu hnc hdest hpos hengine hfuel
    by_cases hm : read_more_chunks s
    · have hmlt : s.output_scanline < s.output_height := by
        rw [read_more_chunks, decide_eq_true_eq] at hm
        exact hm
      have hchunk := read_raw_data_chunk_eq engine s dest hraw hmcu hnc hdest
      rw [if_pos (hengine s.output_scanline)] at hchunk
      have hstep : read_raw_data_loop engine (fuel + 1) s dest =
          read_raw_data_loop engine fuel
            { s with output_scanline :=
                s.output_scanline + engine s.output_scanline }
            (grownDest s.components dest) := by
        simp only [read_raw_data_loop]
        rw [if_pos hm, hchunk]
      rw [hstep]
      have hdct : DCTSIZE ≤ s.max_v_samp_factor * DCTSIZE :=
        Nat.le_mul_of_pos_left DCTSIZE hpos
      refine ih _ _ hraw hmcu hnc ?_ hpos hengine ?_
      · rw [length_grownDest]; exact hdest
      · rw [hengine s.output_scanline]
        have : (8 : Nat) ≤ s.max_v_samp_factor * DCTSIZE := hdct
        simp only []
        omega
    · refine ⟨s, dest, ?_⟩
      unfold read_raw_data_loop
      rw [if_neg hm]

theorem read_scanlines_loop_ne_none (engine : Nat → Nat) (height : Nat) :
    ∀ (fuel sc : Nat), height - sc ≤ fuel →
      read_scanlines_loop engine height fuel sc ≠ none := by
  intro fuel
  induction fuel with
  | zero =>
    intro sc hfuel
    unfold read_scanlines_loop
    rw [if_neg (by omega)]
    exact Option.some_ne_none _
  | succ fuel ih =>
    intro sc hfuel
    unfold read_scanlines_loop
    by_cases hsc : sc < height
    · rw [if_pos hsc]
      by_cases hr : engine sc = 0
      · rw [if_pos hr]; exact Option.some_ne_none _
      · rw [if_neg hr]
        exact ih (sc + engine sc) (by omega)
    · rw [if_neg hsc]; exact Option.some_ne_none _

theorem read_scanlines_loop_some_ge (engine : Nat → Nat) (height : Nat) :
    ∀ (fuel sc sc' : Nat),
      read_scanlines_loop engine height fuel sc = some (some sc') →
      height ≤ sc' := by
  intro fuel
  induction fuel with
  | zero =>
    intro sc sc' h
    unfold read_scanlines_loop at h
    by_cases hsc : sc < height
    · rw [if_pos hsc] at h; exact absurd h (by simp)
    · rw [if_neg hsc] at h
      have := Option.some.inj h
      have := Option.some.inj this
      omega
  | succ fuel ih =>
    intro sc sc' h
    unfold read_scanlines_loop at h
    by_cases hsc : sc < height
    · rw [if_pos hsc] at h
      by_cases hr : engine sc = 0
      · rw [if_pos hr] at h; exact absurd h (by simp)
      · rw [if_neg hr] at h
        exact ih (sc + engine sc) sc' h
    · rw [if_neg hsc] at h
      have := Option.some.inj h
      have := Option.some.inj this
      omega

theorem read_scanlines_loop_none_iff (engine : Nat → Nat) (height : Nat)
    (hengine : ∀ n, engine n ≤ 1) :
    ∀ (fuel sc : Nat), height - sc ≤ fuel →
      (read_scanlines_loop engine height fuel sc = some none ↔
        ∃ n, sc ≤ n ∧ n < height ∧ engine n = 0) := by
  intro fuel
  induction fuel with
  | zero =>
    intro sc hfuel
    unfold read_scanlines_loop
    rw [if_neg (by omega)]
    constructor
    · intro h; exact absurd (Option.some.inj h) (by simp)
    · intro ⟨n, hn1, hn2, _⟩; omega
  | succ fuel ih =>
    intro sc hfuel
    unfold read_scanlines_loop
    by_cases hsc : sc < height
    · rw [if_pos hsc]
      by_cases hr : engine sc = 0
      · rw [if_pos hr]
        exact ⟨fun _ => ⟨sc, Nat.le_refl sc, hsc, hr⟩, fun _ => rfl⟩
      · rw [if_neg hr]
        have h1 : engine sc = 1 := by have := hengine sc; omega
        rw [ih (sc + engine sc) (by omega)]
        constructor
        · intro ⟨n, hn1, hn2, hn3⟩
          exact ⟨n, by omega, hn2, hn3⟩
        · intro ⟨n, hn1, hn2, hn3⟩
          refine ⟨n, ?_, hn2, hn3⟩
          rcases Nat.eq_or_lt_of_le hn1 with heq | hlt
          · rw [← heq] at hn3; exact absurd hn3 hr
          · omega
    · rw [if_neg hsc]
      constructor
      · intro h; exact absurd (Option.some.inj h) (by simp)
      · intro ⟨n, hn1, hn2, _⟩; omega

/-! ## Concrete inputs for witnesses and counterexamples

`sTest` mirrors the repository's own 45×30 4:2:0 test image (`tests/test.jpg`):
component 0 has sampling factors (2,2) and row stride 48, components 1–2 have
(1,1) and row stride 24, so the MCU height is 16. -/

def sTest : DecState :=
  { raw_data_out := true, max_v_samp_factor := 2,
    components := [⟨2, 48⟩, ⟨1, 24⟩, ⟨1, 24⟩],
    output_scanline := 0, output_height := 30, output_width := 45,
    out_color_space := JColorSpace.JCS_YCbCr }

/-- An engine that always reports a full 16-row MCU read. -/
def engFull16 : Nat → Nat := fun _ => 16

/-- An engine that reports only 8 rows per raw read (a short read). -/
def engShort8 : Nat → Nat := fun _ => 8

/-- State `sTest` before `raw()` was called: `raw_data_out` still unset. -/
def sRawOff : DecState := { sTest with raw_data_out := false }

/-- The row-pointer table the model hands the engine on the first chunk call
for `sTest` with fresh destination buffers. -/
def rpTest : List (List RowPtr) :=
  rowPtrsTable sTest.components [0, 0, 0] (sTest.max_v_samp_factor * DCTSIZE)

/-- State `sTest` after one successful chunk: 16 scanlines produced. -/
def sTestAfter : DecState := { sTest with output_scanline := 16 }

/-! ## Claim theorems -/

/-- C1: for every `read_raw_data_chunk` call whose ceiling preconditions hold
(raw mode set, MCU height at most 16, component count at most 4 and at most the
destination count, and the engine invariant that no component's vertical
sampling factor exceeds `max_v_samp_factor`), every component `ci` has its
destination buffer grown by exactly `v_samp_factor * 8 * row_stride` bytes
(other buffers keep their lengths), and on the success path the row-pointer
table's entries `0 .. v_samp_factor*8` for `ci` are consecutive
`row_stride`-sized ranges starting at the buffer's pre-call length, while
entries from `v_samp_factor*8` up to the shared MCU height
`max_v_samp_factor*8` are null. -/
theorem raw_chunk_growth_and_row_ptrs (engine : Nat → Nat) (s : DecState)
    (dest : List Nat)
    (hraw : s.raw_data_out = true)
    (hmcu : s.max_v_samp_factor * DCTSIZE ≤ MAX_MCU_HEIGHT)
    (hnc : s.components.length ≤ MAX_COMPONENTS)
    (hdest : s.components.length ≤ dest.length)
    (hv : ∀ c ∈ s.components, c.v_samp_factor ≤ s.max_v_samp_factor) :
    ((read_raw_data_chunk engine s dest).2.length = dest.length) ∧
    (∀ ci c, s.components[ci]? = some c →
      (read_raw_data_chunk engine s dest).2.getD ci 0 =
        dest.getD ci 0 + c.v_samp_factor * DCTSIZE * c.row_stride) ∧
    (∀ rp lr s', (read_raw_data_chunk engine s dest).1 = .ok rp lr s' →
      ∀ ci c, s.components[ci]? = some c →
        (∀ ri, ri < c.v_samp_factor * DCTSIZE →
          (rp.getD ci []).getD ri none =
            some (dest.getD ci 0 + ri * c.row_stride, c.row_stride)) ∧
        (∀ ri, c.v_samp_factor * DCTSIZE ≤ ri →
          ri < s.max_v_samp_factor * DCTSIZE →
          (rp.getD ci []).getD ri none = none)) := by
  have hchunk := read_raw_data_chunk_eq engine s dest hraw hmcu hnc hdest
  have hsnd : (read_raw_data_chunk engine s dest).2 =
      grownDest s.components dest := by rw [hchunk]
  have hfst : (read_raw_data_chunk engine s dest).1 =
      (if engine s.output_scanline = s.max_v_samp_factor * DCTSIZE then
        RawChunkOutcome.ok
          (rowPtrsTable s.components dest (s.max_v_samp_factor * DCTSIZE))
          (engine s.output_scanline)
          { s with output_scanline := s.output_scanline + engine s.output_scanline }
      else .panicked .shortRead) := by rw [hchunk]
  refine ⟨?_, ?_, ?_⟩
  · rw [hsnd]; exact length_grownDest s.components dest
  · intro ci c hc
    rw [hsnd]
    have hci : ci < s.components.length := (List.getElem?_eq_some.mp hc).1
    exact grownDest_getD s.components dest ci c (by omega) hc
  · intro rp lr s' hok ci c hc
    rw [hfst] at hok
    by_cases hfull : engine s.output_scanline = s.max_v_samp_factor * DCTSIZE
    · rw [if_pos hfull] at hok
      injection hok with h1 h2 h3
      have hci : ci < s.components.length := (List.getElem?_eq_some.mp hc).1
      have hvci : c.v_samp_factor ≤ s.max_v_samp_factor := by
        refine hv c ?_
        rcases List.getElem?_eq_some.mp hc with ⟨hlt, hget⟩
        rw [← hget]
        exact List.getElem_mem hlt
      have hvh : c.v_samp_factor * DCTSIZE ≤ s.max_v_samp_factor * DCTSIZE :=
        Nat.mul_le_mul_right DCTSIZE hvci
      have htab : rp.getD ci [] =
          compRowPtrs (dest.getD ci 0) c.row_stride (c.v_samp_factor * DCTSIZE)
            (s.max_v_samp_factor * DCTSIZE) := by
        rw [← h1]
        exact rowPtrsTable_getD s.components dest _ ci c (by omega) hc
      constructor
      · intro ri hri
        rw [htab, List.getD_eq_getElem?_getD,
          compRowPtrs_getElem? _ _ _ _ ri (by omega), if_pos hri]
        rfl
      · intro ri hri1 hri2
        rw [htab, List.getD_eq_getElem?_getD,
          compRowPtrs_getElem? _ _ _ _ ri (by omega), if_neg (by omega)]
        rfl
    · rw [if_neg hfull] at hok
      exact absurd hok (by simp)

/-- C1 witness: the hypotheses hold for the repository's 45×30 4:2:0 test
image with fresh buffers and a full-MCU engine, and the theorem yields the
concrete growth (768 = 2·8·48 bytes for component 0, 192 = 1·8·24 for
component 1), the concrete row pointer (component 0's row 1 starts at byte 48
with length 48), and the concrete padding (component 1's row 10 is null). -/
theorem raw_chunk_growth_and_row_ptrs_witness :
    (read_raw_data_chunk engFull16 sTest [0, 0, 0]).2.length = 3 ∧
    (read_raw_data_chunk engFull16 sTest [0, 0, 0]).2.getD 0 0 = 768 ∧
    (read_raw_data_chunk engFull16 sTest [0, 0, 0]).2.getD 1 0 = 192 ∧
    (rpTest.getD 0 []).getD 1 none = some (48, 48) ∧
    (rpTest.getD 1 []).getD 10 none = none := by
  have h := raw_chunk_growth_and_row_ptrs engFull16 sTest [0, 0, 0]
    (by decide) (by decide) (by decide) (by decide) (by decide)
  have hok : (read_raw_data_chunk engFull16 sTest [0, 0, 0]).1 =
      .ok rpTest 16 sTestAfter := by decide
  have hp := h.2.2 rpTest 16 sTestAfter hok
  refine ⟨h.1.trans (by decide), ?_, ?_, ?_, ?_⟩
  · exact (h.2.1 0 ⟨2, 48⟩ (by decide)).trans (by decide)
  · exact (h.2.1 1 ⟨1, 24⟩ (by decide)).trans (by decide)
  · exact ((hp 0 ⟨2, 48⟩ (by decide)).1 1 (by decide)).trans (by decide)
  · exact (hp 1 ⟨1, 24⟩ (by decide)).2 10 (by decide) (by decide)

/-- C2: under the entry preconditions, a successful `read_raw_data_chunk`
always reports exactly the requested MCU height
(`max_v_samp_factor * DCTSIZE`) rows, and whenever the engine reports any other
count the call aborts with the short-read assertion failure instead of
continuing. -/
theorem raw_chunk_full_read_asserted (engine : Nat → Nat) (s : DecState)
    (dest : List Nat)
    (hraw : s.raw_data_out = true)
    (hmcu : s.max_v_samp_factor * DCTSIZE ≤ MAX_MCU_HEIGHT)
    (hnc : s.components.length ≤ MAX_COMPONENTS)
    (hdest : s.components.length ≤ dest.length) :
    (∀ rp lr s', (read_raw_data_chunk engine s dest).1 = .ok rp lr s' →
      lr = s.max_v_samp_factor * DCTSIZE) ∧
    (engine s.output_scanline ≠ s.max_v_samp_factor * DCTSIZE →
      (read_raw_data_chunk engine s dest).1 = .panicked .shortRead) := by
  have hchunk := read_raw_data_chunk_eq engine s dest hraw hmcu hnc hdest
  have hfst : (read_raw_data_chunk engine s dest).1 =
      (if engine s.output_scanline = s.max_v_samp_factor * DCTSIZE then
        RawChunkOutcome.ok
          (rowPtrsTable s.components dest (s.max_v_samp_factor * DCTSIZE))
          (engine s.output_scanline)
          { s with output_scanline := s.output_scanline + engine s.output_scanline }
      else .panicked .shortRead) := by rw [hchunk]
  constructor
  · intro rp lr s' hok
    rw [hfst] at hok
    by_cases hfull : engine s.output_scanline = s.max_v_samp_factor * DCTSIZE
    · rw [if_pos hfull] at hok
      injection hok with h1 h2 h3
      rw [← h2]
      exact hfull
    · rw [if_neg hfull] at hok
      exact absurd hok (by simp)
  · intro hne
    rw [hfst, if_neg hne]

/-- C2 witness: on the test image the full-MCU engine yields a success
reporting exactly 16 = 2·8 rows, and an engine reporting 8 rows makes the same
call abort with the short-read assertion. -/
theorem raw_chunk_full_read_asserted_witness :
    (16 : Nat) = sTest.max_v_samp_factor * DCTSIZE ∧
    (read_raw_data_chunk engShort8 sTest [0, 0, 0]).1 = .panicked .shortRead := by
  have hok : (read_raw_data_chunk engFull16 sTest [0, 0, 0]).1 =
      .ok rpTest 16 sTestAfter := by decide
  refine ⟨?_, ?_⟩
  · exact (raw_chunk_full_read_asserted engFull16 sTest [0, 0, 0]
      (by decide) (by decide) (by decide) (by decide)).1 rpTest 16 sTestAfter hok
  · exact (raw_chunk_full_read_asserted engShort8 sTest [0, 0, 0]
      (by decide) (by decide) (by decide) (by decide)).2 (by decide)

/-- C3 counterexample: the claim "the operation never fails fast for any call
where all three bounds hold" is false at two concrete inputs. On `sRawOff`
(raw output mode not set) the MCU height is 16 ≤ 16, there are 3 ≤ 4
components and 3 destination buffers, yet the call panics (the
`assert!(0 != raw_data_out)` at entry); and on `sTest` with an engine that
reports 8 of 16 rows all three bounds hold, yet the call panics (the
short-read assertion). -/
theorem raw_chunk_fail_fast_cex :
    ((read_raw_data_chunk engFull16 sRawOff [0, 0, 0]).1.isPanicked = true ∧
      ¬(MAX_MCU_HEIGHT < sRawOff.max_v_samp_factor * DCTSIZE ∨
        MAX_COMPONENTS < sRawOff.components.length ∨
        ([0, 0, 0] : List Nat).length < sRawOff.components.length)) ∧
    ((read_raw_data_chunk engShort8 sTest [0, 0, 0]).1.isPanicked = true ∧
      ¬(MAX_MCU_HEIGHT < sTest.max_v_samp_factor * DCTSIZE ∨
        MAX_COMPONENTS < sTest.components.length ∨
        ([0, 0, 0] : List Nat).length < sTest.components.length)) := by
  decide

/-- C3 amended: for calls made in raw output mode on which the engine
delivers the full MCU height, `read_raw_data_chunk` panics exactly when the
MCU height exceeds 16, or the component count exceeds 4, or the component
count exceeds the number of destination buffers supplied. (The two situations
the original claim missed — raw mode not set, and a short engine read — are
excluded by the two hypotheses.) -/
theorem raw_chunk_fail_fast_amended (engine : Nat → Nat) (s : DecState)
    (dest : List Nat)
    (hraw : s.raw_data_out = true)
    (hfull : engine s.output_scanline = s.max_v_samp_factor * DCTSIZE) :
    ((read_raw_data_chunk engine s dest).1.isPanicked = true ↔
      (MAX_MCU_HEIGHT < s.max_v_samp_factor * DCTSIZE ∨
        MAX_COMPONENTS < s.components.length ∨
        dest.length < s.components.length)) := by
  unfold read_raw_data_chunk
  rw [hraw, if_neg (by decide)]
  by_cases h2 : MAX_MCU_HEIGHT < s.max_v_samp_factor * DCTSIZE
  · rw [if_pos h2]
    simp only [RawChunkOutcome.isPanicked]
    exact ⟨fun _ => Or.inl h2, fun _ => trivial⟩
  · rw [if_neg h2]
    by_cases h3 : MAX_COMPONENTS < s.components.length ∨
        dest.length < s.components.length
    · rw [if_pos h3]
      simp only [RawChunkOutcome.isPanicked]
      exact ⟨fun _ => Or.inr h3, fun _ => trivial⟩
    · rw [if_neg h3, if_neg (fun hh => hh hfull)]
      simp only [RawChunkOutcome.isPanicked]
      constructor
      · intro hfalse
        exact absurd hfalse (by simp)
      · intro hd
        exact absurd hd (by omega)

/-- C3 witness: for the test image in raw mode with a full-MCU engine and
3 destination buffers, the amended equivalence instantiates to
`false ↔ false`: the call does not panic and no bound is violated. -/
theorem raw_chunk_fail_fast_amended_witness :
    (read_raw_data_chunk engFull16 sTest [0, 0, 0]).1.isPanicked = false := by
  have h := raw_chunk_fail_fast_amended engFull16 sTest [0, 0, 0]
    (by decide) (by decide)
  have hno : ¬(MAX_MCU_HEIGHT < sTest.max_v_samp_factor * DCTSIZE ∨
      MAX_COMPONENTS < sTest.components.length ∨
      ([0, 0, 0] : List Nat).length < sTest.components.length) := by decide
  exact Bool.of_not_eq_true (fun htrue => hno (h.mp htrue))

/-- C9: when a ceiling precondition is violated (MCU height over 16, or
component count over 4 or over the destination count), `read_raw_data_chunk`
leaves every caller-supplied destination buffer unchanged: both checks run
before any buffer is grown or written. -/
theorem raw_chunk_precondition_preserves_dest (engine : Nat → Nat)
    (s : DecState) (dest : List Nat)
    (h : MAX_MCU_HEIGHT < s.max_v_samp_factor * DCTSIZE ∨
      MAX_COMPONENTS < s.components.length ∨
      dest.length < s.components.length) :
    (read_raw_data_chunk engine s dest).2 = dest := by
  unfold read_raw_data_chunk
  by_cases h1 : s.raw_data_out = false
  · rw [if_pos h1]
  · rw [if_neg h1]
    by_cases h2 : MAX_MCU_HEIGHT < s.max_v_samp_factor * DCTSIZE
    · rw [if_pos h2]
    · rw [if_neg h2, if_pos (by omega)]

/-- C9 witness: with five components (over the 4-component ceiling) and one
destination buffer, the chunk call leaves the destination length list exactly
as supplied. -/
theorem raw_chunk_precondition_preserves_dest_witness :
    (read_raw_data_chunk engFull16
      { sTest with components := [⟨1, 8⟩, ⟨1, 8⟩, ⟨1, 8⟩, ⟨1, 8⟩, ⟨1, 8⟩] }
      [7]).2 = [7] :=
  raw_chunk_precondition_preserves_dest engFull16
    { sTest with components := [⟨1, 8⟩, ⟨1, 8⟩, ⟨1, 8⟩, ⟨1, 8⟩, ⟨1, 8⟩] }
    [7] (by decide)

/-- C4 counterexample: a malformed header that makes the engine raise a fatal
error (diagnostic code 55, say) does not surface as a structured decode error —
under the default panicking error manager the process panics instead, exactly
as the source comment on `read_header` warns. -/
theorem read_header_no_panic_cex :
    (read_header (.fatal 55)).isDecodeError = false ∧
    (read_header (.fatal 55)).isAborted = true := by decide

/-- C4 amended: a malformed or truncated header surfaces as a structured
decode error carrying the engine's status code only when the engine returns a
non-OK status without raising a fatal error; when the engine raises a fatal
error, the default panicking error manager panics the caller's process with
the diagnostic code. Success happens exactly on engine status 1. -/
theorem read_header_amended (eng : HeaderEngineOutcome) :
    (∀ code, eng = .fatal code → read_header eng = .aborted code) ∧
    (∀ res, eng = .ret res → res ≠ 1 → read_header eng = .decodeError res) ∧
    (read_header eng = .ok ↔ eng = .ret 1) := by
  refine ⟨?_, ?_, ?_⟩
  · intro code h
    rw [h]
    rfl
  · intro res h hne
    rw [h]
    simp only [read_header]
    rw [if_neg hne]
  · cases eng with
    | fatal c => simp [read_header]
    | ret res =>
      by_cases h : res = 1
      · subst h
        simp [read_header]
      · simp [read_header, h]

/-- C4 witness: the three branches of the amended statement at engine
outcomes `fatal 55`, `ret 0` (e.g. a suspended read) and `ret 1`. -/
theorem read_header_amended_witness :
    read_header (.fatal 55) = .aborted 55 ∧
    read_header (.ret 0) = .decodeError 0 ∧
    read_header (.ret 1) = .ok :=
  ⟨(read_header_amended (.fatal 55)).1 55 rfl,
    (read_header_amended (.ret 0)).2.1 0 rfl (by decide),
    (read_header_amended (.ret 1)).2.2.mpr rfl⟩

/-- C5: for a freshly started interleaved decode (scanline 0) whose engine
honours the `max_lines = 1` contract, `read_scanlines` panics exactly when the
pixel type's byte width differs from the output colorspace's component count;
otherwise it works on a buffer of exactly `output_height * output_width`
elements allocated up front, returns it in full when the engine produces rows
on every iteration, and returns `None` exactly when the engine reports zero
rows at some scanline below the declared height. -/
theorem read_scanlines_contract (sizeT : Nat) (engine : Nat → Nat) (s : DecState)
    (hengine : ∀ n, engine n ≤ 1) (hstart : s.output_scanline = 0) :
    (read_scanlines sizeT engine s = .sizeMismatch ↔
      num_components s.out_color_space ≠ sizeT) ∧
    (read_scanlines sizeT engine s = .noData ↔
      (num_components s.out_color_space = sizeT ∧
        ∃ n, n < s.output_height ∧ engine n = 0)) ∧
    (∀ len s', read_scanlines sizeT engine s = .image len s' →
      len = s.output_height * s.output_width ∧
      ¬ s'.output_scanline < s.output_height) ∧
    ((num_components s.out_color_space = sizeT ∧
        (∀ n, n < s.output_height → engine n ≠ 0)) →
      ∃ s', read_scanlines sizeT engine s =
        .image (s.output_height * s.output_width) s') := by
  by_cases hnc : num_components s.out_color_space = sizeT
  · have hloopne := read_scanlines_loop_ne_none engine s.output_height
      (s.output_height - s.output_scanline) s.output_scanline (Nat.le_refl _)
    have hiff := read_scanlines_loop_none_iff engine s.output_height hengine
      (s.output_height - s.output_scanline) s.output_scanline (Nat.le_refl _)
    rcases hv : read_scanlines_loop engine s.output_height
        (s.output_height - s.output_scanline) s.output_scanline with _ | ov
    · exact absurd hv hloopne
    · cases ov with
      | none =>
        have hres : read_scanlines sizeT engine s = .noData := by
          unfold read_scanlines
          rw [if_neg (fun h => h hnc), hv]
        obtain ⟨n, _, hn2, hn3⟩ := hiff.mp hv
        refine ⟨?_, ?_, ?_, ?_⟩
        · rw [hres]
          exact ⟨fun h => absurd h (by simp), fun h => absurd hnc h⟩
        · rw [hres]
          exact ⟨fun _ => ⟨hnc, n, hn2, hn3⟩, fun _ => rfl⟩
        · intro len s' h
          rw [hres] at h
          exact absurd h (by simp)
        · intro ⟨_, hall⟩
          exact absurd hn3 (hall n hn2)
      | some sc' =>
        have hres : read_scanlines sizeT engine s =
            .image (s.output_height * s.output_width)
              { s with output_scanline := sc' } := by
          unfold read_scanlines
          rw [if_neg (fun h => h hnc), hv]
        have hge := read_scanlines_loop_some_ge engine s.output_height _ _ _ hv
        refine ⟨?_, ?_, ?_, ?_⟩
        · rw [hres]
          exact ⟨fun h => absurd h (by simp), fun h => absurd hnc h⟩
        · rw [hres]
          constructor
          · intro h
            exact absurd h (by simp)
          · intro ⟨_, n, hn2, hn3⟩
            have := hiff.mpr ⟨n, by omega, hn2, hn3⟩
            rw [hv] at this
            exact absurd this (by simp)
        · intro len s' h
          rw [hres] at h
          injection h with hl hs
          refine ⟨hl.symm, ?_⟩
          rw [← hs]
          show ¬ sc' < s.output_height
          omega
        · intro _
          exact ⟨{ s with output_scanline := sc' }, hres⟩
  · have hres : read_scanlines sizeT engine s = .sizeMismatch := by
      unfold read_scanlines
      rw [if_pos hnc]
    refine ⟨⟨fun _ => hnc, fun _ => hres⟩, ?_, ?_, ?_⟩
    · rw [hres]
      constructor
      · intro h
        exact absurd h (by simp)
      · intro ⟨h1, _⟩
        exact absurd h1 hnc
    · intro len s' h
      rw [hres] at h
      exact absurd h (by simp)
    · intro ⟨h1, _⟩
      exact absurd h1 hnc

/-- A header-parsed session for the RGB interleaved path: the test image after
`rgb()` negotiated `JCS_RGB` output (3 components). -/
def sRGB : DecState :=
  { sTest with raw_data_out := false, out_color_space := JColorSpace.JCS_RGB }

/-- An engine producing one scanline per call, as `jpeg_read_scanlines` does
for a well-formed stream when invoked with `max_lines = 1`. -/
def engOne : Nat → Nat := fun _ => 1

/-- C5 witness: for the 45×30 RGB decode with 3-byte pixels and a one-row
engine, the size check passes (so no `sizeMismatch`), and the returned buffer
has exactly `output_height * output_width = 1350` elements. -/
theorem read_scanlines_contract_witness :
    (read_scanlines 3 engOne sRGB = .sizeMismatch ↔
      num_components sRGB.out_color_space ≠ 3) ∧
    (1350 : Nat) = sRGB.output_height * sRGB.output_width := by
  have h := read_scanlines_contract 3 engOne sRGB (fun _ => Nat.le_refl 1) rfl
  have himg : read_scanlines 3 engOne sRGB =
      .image 1350 { sRGB with output_scanline := 30 } := by decide
  exact ⟨h.1, (h.2.2.1 1350 { sRGB with output_scanline := 30 } himg).1⟩

/-- C6: `image` returns the tagged variant `RGB`, `Gray` or `CMYK` matching
the negotiated output colorspace (the wrapped session carries that very
colorspace, which `start_decompress` leaves unchanged), and for every other
output colorspace it returns the unsupported error without consulting the
engine at all (the result is the same whether or not the engine could start). -/
theorem image_format_tagging (engineOk : Bool) (s : DecState) :
    (engineOk = true →
      (s.out_color_space = .JCS_RGB →
        image engineOk s = .ok (.RGB ⟨s⟩)) ∧
      (s.out_color_space = .JCS_GRAYSCALE →
        image engineOk s = .ok (.Gray ⟨s⟩)) ∧
      (s.out_color_space = .JCS_CMYK →
        image engineOk s = .ok (.CMYK ⟨s⟩))) ∧
    (s.out_color_space ≠ .JCS_RGB → s.out_color_space ≠ .JCS_GRAYSCALE →
      s.out_color_space ≠ .JCS_CMYK →
      image engineOk s = .error (.unsupported s.out_color_space) ∧
      image true s = image false s) := by
  constructor
  · intro hok
    refine ⟨?_, ?_, ?_⟩ <;> intro hcs <;>
      (unfold image start_decompress; rw [hcs, hok, if_pos rfl])
  · intro h1 h2 h3
    cases hcs : s.out_color_space with
    | JCS_RGB => exact absurd hcs h1
    | JCS_GRAYSCALE => exact absurd hcs h2
    | JCS_CMYK => exact absurd hcs h3
    | JCS_UNKNOWN =>
      unfold image
      rw [hcs]
      exact ⟨rfl, rfl⟩
    | JCS_YCbCr =>
      unfold image
      rw [hcs]
      exact ⟨rfl, rfl⟩
    | JCS_YCCK =>
      unfold image
      rw [hcs]
      exact ⟨rfl, rfl⟩

/-- C6 witness: with a successfully starting engine, an RGB session yields the
`RGB` variant wrapping that session, and the YCbCr test session (no variant
for YCbCr) yields the unsupported error. -/
theorem image_format_tagging_witness :
    image true sRGB = .ok (.RGB ⟨sRGB⟩) ∧
    image true sTest = .error (.unsupported JColorSpace.JCS_YCbCr) := by
  have h1 := (image_format_tagging true sRGB).1 rfl
  have h2 := (image_format_tagging true sTest).2 (by decide) (by decide) (by decide)
  exact ⟨h1.1 rfl, h2.1⟩

/-- C7: the read-progress predicate `read_more_chunks` holds exactly when
`output_scanline < output_height`; whenever either read loop exits normally
the predicate is false at the final state (loops are governed by the
predicate, not an iteration count); and under the raw preconditions with a
full-MCU engine the raw loop does terminate normally with the predicate
false. -/
theorem read_loops_progress_predicate :
    (∀ s : DecState, read_more_chunks s = true ↔
      s.output_scanline < s.output_height) ∧
    (∀ (engine : Nat → Nat) (fuel : Nat) (s : DecState) (dest : List Nat)
        (s' : DecState) (d' : List Nat),
      read_raw_data_loop engine fuel s dest = some (.ok (s', d')) →
      read_more_chunks s' = false) ∧
    (∀ (engine : Nat → Nat) (height fuel sc sc' : Nat),
      read_scanlines_loop engine height fuel sc = some (some sc') →
      ¬ sc' < height) ∧
    (∀ (engine : Nat → Nat) (s : DecState) (dest : List Nat),
      s.raw_data_out = true →
      s.max_v_samp_factor * DCTSIZE ≤ MAX_MCU_HEIGHT →
      s.components.length ≤ MAX_COMPONENTS →
      s.components.length ≤ dest.length →
      1 ≤ s.max_v_samp_factor →
      (∀ n, engine n = s.max_v_samp_factor * DCTSIZE) →
      ∃ s' d', read_raw_data engine s dest = some (.ok (s', d')) ∧
        read_more_chunks s' = false) := by
  refine ⟨?_, ?_, ?_, ?_⟩
  · intro s
    rw [read_more_chunks]
    exact ⟨of_decide_eq_true, decide_eq_true⟩
  · exact fun engine fuel s dest s' d' h =>
      read_raw_data_loop_ok_exits engine fuel s dest s' d' h
  · intro engine height fuel sc sc' h
    have := read_scanlines_loop_some_ge engine height fuel sc sc' h
    omega
  · intro engine s dest hraw hmcu hnc hdest hpos hengine
    obtain ⟨s', d', hl⟩ := read_raw_data_loop_terminates engine
      (s.output_height - s.output_scanline) s dest hraw hmcu hnc hdest hpos
      hengine (Nat.le_refl _)
    exact ⟨s', d', hl, read_raw_data_loop_ok_exits engine _ s dest s' d' hl⟩

/-- C7 witness: on the test image the predicate holds at scanline 0 of 30,
the raw loop that reaches scanline 32 exits with the predicate false, and the
scanline loop that finishes at scanline 30 satisfies `¬ 30 < 30`. -/
theorem read_loops_progress_predicate_witness :
    read_more_chunks sTest = true ∧
    read_more_chunks { sTest with output_scanline := 32 } = false ∧
    ¬ (30 : Nat) < 30 := by
  have h := read_loops_progress_predicate
  have hloop : read_raw_data_loop engFull16 30 sTest [0, 0, 0] =
      some (.ok ({ sTest with output_scanline := 32 }, [1536, 384, 384])) := by
    decide
  have hsl : read_scanlines_loop engOne 30 30 0 = some (some 30) := by decide
  exact ⟨(h.1 sTest).mpr (by decide),
    h.2.1 engFull16 30 sTest [0, 0, 0] _ _ hloop,
    h.2.2.1 engOne 30 30 0 30 hsl⟩

/-- C8 (code evaluation for the code_bug finding): the default marker-interest
set of a new configuration is empty, but the convenience set `ALL_MARKERS`
has only 16 entries — it contains APP14 and COM yet omits APP15, contradicting
the claim that it contains APP0 through APP15 plus COM. -/
theorem all_markers_eval :
    DecompressConfig.new.save_markers = ([] : List Marker) ∧
    Marker.APP 15 ∉ ALL_MARKERS ∧
    Marker.APP 14 ∈ ALL_MARKERS ∧
    Marker.APP 0 ∈ ALL_MARKERS ∧
    Marker.COM ∈ ALL_MARKERS ∧
    ALL_MARKERS.length = 16 := by decide

theorem mem_foldl_save_marker (ms : List Marker) :
    ∀ (acc : List (Marker × Nat)) (m : Marker) (lim : Nat),
      (m, lim) ∈ ms.foldl save_marker acc → (m, lim) ∈ acc ∨ lim = 0xFFFF := by
  induction ms with
  | nil => exact fun acc m lim h => Or.inl h
  | cons x ms ih =>
    intro acc m lim h
    rcases ih (save_marker acc x) m lim h with hin | hl
    · unfold save_marker at hin
      rcases List.mem_append.mp hin with h1 | h2
      · exact Or.inl h1
      · right
        have h3 := List.mem_singleton.mp h2
        exact congrArg Prod.snd h3
    · exact Or.inr hl

/-- C10: every registration `DecompressConfig::create` makes with the engine
carries the fixed retained-size limit 0xFFFF = 65535 bytes, and under the
engine's size-limit semantics no retained marker segment's data can exceed
65535 bytes, whatever the segment's size in the bitstream. -/
theorem save_marker_size_limit (cfg : DecompressConfig) (m : Marker) (lim : Nat)
    (h : (m, lim) ∈ cfg.create) :
    lim = 0xFFFF ∧ ∀ segLen, retainedMarkerLen segLen lim ≤ 65535 := by
  have hl : lim = 0xFFFF := by
    rcases mem_foldl_save_marker cfg.save_markers [] m lim h with h0 | h1
    · exact absurd h0 (List.not_mem_nil _)
    · exact h1
  refine ⟨hl, fun segLen => ?_⟩
  rw [retainedMarkerLen, hl]
  exact min_le_right _ _

/-- C10 witness: registering `ALL_MARKERS` registers COM with limit 0xFFFF,
and a 100000-byte segment is retained at no more than 65535 bytes. -/
theorem save_marker_size_limit_witness :
    (Marker.COM, (0xFFFF : Nat)) ∈
      (DecompressConfig.new.with_markers ALL_MARKERS).create ∧
    retainedMarkerLen 100000 0xFFFF ≤ 65535 := by
  have hmem : (Marker.COM, (0xFFFF : Nat)) ∈
      (DecompressConfig.new.with_markers ALL_MARKERS).create := by decide
  exact ⟨hmem,
    (save_marker_size_limit (DecompressConfig.new.with_markers ALL_MARKERS)
      Marker.COM 0xFFFF hmem).2 100000⟩

end Mozjpeg
